import Mathlib

/-
Verification of the WebRTC signaling relay core in
rtclite/app/web/rtc/notify.py.

The module keeps a process-wide table `spaces` from a request path to a
Space object.  A Space holds the list of attached connections (requests)
and a FIFO list of pending (sender, data) payloads.  Four hooks are
invoked by the WebSocket transport: onhandshake, onopen, onmessage and
onclose.  We embed the hooks as pure functions from a registry state to a
new registry state plus a list of transport effects (messages sent and
connections force-closed), together with a Bool that records whether a
Python exception escaped the hook.  Network sends may fail (the socket
may already be closed); this is modelled by an oracle fails : Conn → Bool
saying whose send raises during the hook call.

JSON values are modelled by the inductive Json below; json.loads failure
is modelled by the hook receiving none.  Dictionary access data[k] that
raises (KeyError, or TypeError on a non-dict) is modelled by jlookup
returning none, which the hook surfaces as err = true unless the source
wraps the access in try/except.
-/

/-- A JSON value, as produced by json.loads. -/
inductive Json where
  | null : Json
  | str : String → Json
  | num : Int → Json
  | arr : List Json → Json
  | obj : List (String × Json) → Json

/-- Field access on a JSON object: data[k] in Python. Returns none when the
value is not an object or the key is absent (KeyError / TypeError). -/
def lookupField : List (String × Json) → String → Option Json
  | [], _ => none
  | e :: rest, key => if e.1 = key then some e.2 else lookupField rest key

/-- data[k] on an arbitrary JSON value. -/
def jlookup : Json → String → Option Json
  | .obj fields, key => lookupField fields key
  | _, _ => none

/-- Python equality test of a JSON value against a string literal:
true exactly when the value is that string. -/
def isJStr (v : Json) (s : String) : Bool :=
  match v with
  | .str t => decide (t = s)
  | _ => false

/-- A WebSocket connection handle (a request object).  Object identity is
modelled by the numeric id; path is the request path scoping the session. -/
structure Conn where
  id : Nat
  path : String
deriving DecidableEq

/-- The Space class of notify.py: one session slot, holding the attached
requests and the pending (sender, data) queue. -/
structure Space where
  path : String
  requests : List Conn
  pending : List (Conn × Json)

/-- len(self.requests) >= 2. -/
def Space.is_full (sp : Space) : Bool := decide (2 ≤ sp.requests.length)

/-- len(self.requests) == 0. -/
def Space.is_empty (sp : Space) : Bool := decide (sp.requests.length = 0)

/-- self.requests.append(request). -/
def Space.add (sp : Space) (r : Conn) : Space :=
  { sp with requests := sp.requests ++ [r] }

/-- Python list.remove: delete the first occurrence, no-op when absent
(the source wraps remove in try/except). -/
def eraseFirst (r : Conn) : List Conn → List Conn
  | [] => []
  | x :: rest => if x = r then rest else x :: eraseFirst r rest

/-- The pending filter in Space.remove: keep entries whose sender differs. -/
def removePending (r : Conn) : List (Conn × Json) → List (Conn × Json)
  | [] => []
  | e :: rest => if e.1 = r then removePending r rest else e :: removePending r rest

/-- Space.remove: drop the request from requests (first occurrence, ignore
if not found) and drop every pending entry whose sender is the request. -/
def Space.remove (sp : Space) (r : Conn) : Space :=
  { sp with requests := eraseFirst r sp.requests,
            pending := removePending r sp.pending }

/-- The filter [x for x in self.requests if x != request]. -/
def filterNe (r : Conn) : List Conn → List Conn
  | [] => []
  | x :: rest => if x = r then filterNe r rest else x :: filterNe r rest

/-- Space.get_other: the first attached request other than the argument,
or none. -/
def Space.get_other (sp : Space) (r : Conn) : Option Conn :=
  match filterNe r sp.requests with
  | [] => none
  | x :: _ => some x

/-- The process-wide table from path to Space (the global `spaces` dict). -/
abbrev Spaces := List (String × Space)

/-- spaces[p] lookup, none when the key is absent. -/
def lookupSpace : Spaces → String → Option Space
  | [], _ => none
  | e :: rest, p => if e.1 = p then some e.2 else lookupSpace rest p

/-- spaces[p] = sp: replace the entry at the key, or append a new entry. -/
def setSpace : Spaces → String → Space → Spaces
  | [], p, sp => [(p, sp)]
  | e :: rest, p, sp => if e.1 = p then (p, sp) :: rest else e :: setSpace rest p sp

/-- del spaces[p]. -/
def delSpace : Spaces → String → Spaces
  | [], _ => []
  | e :: rest, p => if e.1 = p then delSpace rest p else e :: delSpace rest p

/-- An observable transport effect performed by a hook. -/
inductive Effect where
  | send (dst : Conn) (msg : Json)
  | close (c : Conn)

/-- Result of running a hook: the new registry, the effects performed in
order, and whether a Python exception escaped the hook. -/
structure HookOut where
  spaces : Spaces
  out : List Effect
  err : Bool

/-- The module-level configuration constant of notify.py. -/
def configuration : Json :=
  .obj [("iceServers", .arr [.obj [("url", .str "stun:stun.l.google.com:19302")]])]

/-- The NOTIFY forwarding payload json.dumps builds:
an object with method NOTIFY and the given data. -/
def jnotify (d : Json) : Json :=
  .obj [("method", .str "NOTIFY"), ("data", d)]

/-- The GET /peerconnection success response, echoing msg_id when the
request carried one. -/
def getResponse (j : Json) : Json :=
  let base := [("code", Json.str "success"),
               ("result", Json.obj [("configuration", configuration)])]
  match jlookup j "msg_id" with
  | some mid => .obj (base ++ [("msg_id", mid)])
  | none => .obj base

/-- onhandshake(request, path, headers): raise HTTPError when the path has
a Space that is already full; otherwise allow.  It never mutates state. -/
def onhandshake (ss : Spaces) (path : String) : Except String Unit :=
  match lookupSpace ss path with
  | some sp =>
      if sp.is_full then .error "400 Bad Request - Space Full" else .ok ()
  | none => .ok ()

/-- The flush loop of onopen: send every queued payload to the new request
in FIFO order; a raising send aborts the loop with the exception. -/
def flushPending (fails : Conn → Bool) (req : Conn) :
    List (Conn × Json) → List Effect × Bool
  | [] => ([], false)
  | e :: rest =>
      if fails req then ([], true)
      else
        let r := flushPending fails req rest
        (Effect.send req (jnotify e.2) :: r.1, r.2)

/-- onopen(request): get or create the Space at request.path, append the
request to its members, send it every pending payload in FIFO order and
then clear the queue.  A raising send leaves the queue uncleared and the
request attached, and the exception escapes. -/
def onopen (fails : Conn → Bool) (ss : Spaces) (req : Conn) : HookOut :=
  let sp :=
    match lookupSpace ss req.path with
    | some sp => sp
    | none => Space.mk req.path [] []
  let sp1 := sp.add req
  let fl := flushPending fails req sp1.pending
  if fl.2 then ⟨setSpace ss req.path sp1, fl.1, true⟩
  else ⟨setSpace ss req.path { sp1 with pending := [] }, fl.1, false⟩

/-- onclose(request): when the path has a Space, remove the request, and
when another member exists remove and force-close it too; delete the Space
from the registry when its member list became empty. -/
def onclose (ss : Spaces) (req : Conn) : Spaces × List Effect :=
  match lookupSpace ss req.path with
  | none => (ss, [])
  | some sp =>
      let other := sp.get_other req
      let sp1 := sp.remove req
      match other with
      | some o =>
          let sp2 := sp1.remove o
          if sp2.is_empty then (delSpace ss req.path, [Effect.close o])
          else (setSpace ss req.path sp2, [Effect.close o])
      | none =>
          if sp1.is_empty then (delSpace ss req.path, [])
          else (setSpace ss req.path sp1, [])

/-- The NOTIFY branch of onmessage: get or create the Space, and either
forward the data to the other member (swallowing any send failure or a
missing data field, per the bare except), or append (request, data) to the
pending queue (where a missing data field raises KeyError). -/
def handleNotify (fails : Conn → Bool) (ss : Spaces) (req : Conn) (j : Json) :
    HookOut :=
  let cr :=
    match lookupSpace ss req.path with
    | some sp => (ss, sp)
    | none =>
        let sp := Space.mk req.path [] []
        (setSpace ss req.path sp, sp)
  let ss1 := cr.1
  let sp := cr.2
  match sp.get_other req with
  | some o =>
      match jlookup j "data" with
      | none => ⟨ss1, [], false⟩
      | some d =>
          if fails o then ⟨ss1, [], false⟩
          else ⟨ss1, [Effect.send o (jnotify d)], false⟩
  | none =>
      match jlookup j "data" with
      | none => ⟨ss1, [], true⟩
      | some d =>
          ⟨setSpace ss1 req.path { sp with pending := sp.pending ++ [(req, d)] },
           [], false⟩

/-- onmessage(request, message): none models a json.loads parse failure
(the exception escapes).  A GET for /peerconnection answers the sender
with the static configuration; NOTIFY relays or queues; any other method
falls through both branches and is a no-op.  A missing method or resource
field raises KeyError out of the hook. -/
def onmessage (fails : Conn → Bool) (ss : Spaces) (req : Conn)
    (raw : Option Json) : HookOut :=
  match raw with
  | none => ⟨ss, [], true⟩
  | some j =>
      match jlookup j "method" with
      | none => ⟨ss, [], true⟩
      | some m =>
          if isJStr m "GET" then
            match jlookup j "resource" with
            | none => ⟨ss, [], true⟩
            | some r =>
                if isJStr r "/peerconnection" then
                  if fails req then ⟨ss, [], true⟩
                  else ⟨ss, [Effect.send req (getResponse j)], false⟩
                else ⟨ss, [], false⟩
          else if isJStr m "NOTIFY" then handleNotify fails ss req j
          else ⟨ss, [], false⟩

/-- Modelled from the spec: the rfc6455 WebSocket transport (repository
code not under src/) closes the connection with a protocol error when the
message hook raises.  This wraps onmessage with that transport behavior. -/
def handleMessage (fails : Conn → Bool) (ss : Spaces) (req : Conn)
    (raw : Option Json) : Spaces × List Effect :=
  let r := onmessage fails ss req raw
  if r.err then (r.spaces, r.out ++ [Effect.close req]) else (r.spaces, r.out)

/-- A lifecycle-hook invocation as delivered by the transport. -/
inductive Call where
  | handshake (c : Conn)
  | opened (c : Conn) (fails : Conn → Bool)
  | message (c : Conn) (raw : Option Json) (fails : Conn → Bool)
  | closed (c : Conn)

/-- State transition of one hook invocation (registry part only). -/
def step (ss : Spaces) : Call → Spaces
  | .handshake _ => ss
  | .opened c f => (onopen f ss c).spaces
  | .message c raw f => (onmessage f ss c raw).spaces
  | .closed c => (onclose ss c).1

/-- Run a trace of hook invocations from the empty registry. -/
def run (tr : List Call) : Spaces := tr.foldl step []

/-- The transport contract checker: each connection handshakes at most
once and strictly before its open (and only a connection whose handshake
was accepted is opened), a connection receives messages only while it is
open and not yet closed by the transport, and the transport closes an
opened connection at most once. -/
def contractAux : Spaces → List Conn → List Conn → List Conn → List Call → Bool
  | _, _, _, _, [] => true
  | ss, hs, op, cl, .handshake c :: rest =>
      decide (c ∉ hs) && decide (c ∉ op) &&
      (match onhandshake ss c.path with
       | .ok _ => contractAux ss (c :: hs) op cl rest
       | .error _ => contractAux ss hs op cl rest)
  | ss, hs, op, cl, .opened c f :: rest =>
      decide (c ∈ hs) && decide (c ∉ op) &&
      contractAux (onopen f ss c).spaces hs (c :: op) cl rest
  | ss, hs, op, cl, .message c raw f :: rest =>
      decide (c ∈ op) && decide (c ∉ cl) &&
      contractAux (onmessage f ss c raw).spaces hs op cl rest
  | ss, hs, op, cl, .closed c :: rest =>
      decide (c ∈ op) && decide (c ∉ cl) &&
      contractAux (onclose ss c).1 hs op (c :: cl) rest

/-- A trace respects the transport contract. -/
def contract (tr : List Call) : Bool := contractAux [] [] [] [] tr

/-- A hook invocation under atomic admission: a connection handshake that,
when accepted, is immediately followed by the open of that connection. -/
inductive ACall where
  | connect (c : Conn) (fails : Conn → Bool)
  | message (c : Conn) (raw : Option Json) (fails : Conn → Bool)
  | closed (c : Conn)

/-- State transition under atomic admission. -/
def stepA (ss : Spaces) : ACall → Spaces
  | .connect c f =>
      match onhandshake ss c.path with
      | .error _ => ss
      | .ok _ => (onopen f ss c).spaces
  | .message c raw f => (onmessage f ss c raw).spaces
  | .closed c => (onclose ss c).1

/-- Run an atomic-admission trace from the empty registry. -/
def runA (tr : List ACall) : Spaces := tr.foldl stepA []

/-- A send oracle under which no send fails. -/
def noFail : Conn → Bool := fun _ => false

/-- A send oracle under which every send fails. -/
def allFail : Conn → Bool := fun _ => true

/-! ### Registry lemmas -/

theorem lookup_set_self (ss : Spaces) (p : String) (sp : Space) :
    lookupSpace (setSpace ss p sp) p = some sp := by
  induction ss with
  | nil => simp [setSpace, lookupSpace]
  | cons e rest ih =>
      by_cases h : e.1 = p
      · simp [setSpace, lookupSpace, h]
      · simp [setSpace, lookupSpace, h, ih]

theorem lookup_set_ne (ss : Spaces) (p q : String) (sp : Space) (h : q ≠ p) :
    lookupSpace (setSpace ss p sp) q = lookupSpace ss q := by
  have hpq : ¬ p = q := fun hh => h hh.symm
  induction ss with
  | nil => simp [setSpace, lookupSpace, hpq]
  | cons e rest ih =>
      by_cases he : e.1 = p
      · have hq : ¬ e.1 = q := fun hh => hpq (he ▸ hh)
        simp [setSpace, lookupSpace, he, hpq, hq]
      · by_cases hq : e.1 = q
        · simp [setSpace, lookupSpace, he, hq, h]
        · simp [setSpace, lookupSpace, he, hq, ih]

theorem lookup_del_self (ss : Spaces) (p : String) :
    lookupSpace (delSpace ss p) p = none := by
  induction ss with
  | nil => simp [delSpace, lookupSpace]
  | cons e rest ih =>
      by_cases h : e.1 = p
      · simp [delSpace, h, ih]
      · simp [delSpace, lookupSpace, h, ih]

theorem lookup_del_ne (ss : Spaces) (p q : String) (h : q ≠ p) :
    lookupSpace (delSpace ss p) q = lookupSpace ss q := by
  have hpq : ¬ p = q := fun hh => h hh.symm
  induction ss with
  | nil => simp [delSpace]
  | cons e rest ih =>
      by_cases he : e.1 = p
      · have hq : ¬ e.1 = q := fun hh => h ((hh ▸ he : q = p))
        simp [delSpace, lookupSpace, he, hq, hpq, ih]
      · by_cases hq : e.1 = q
        · simp [delSpace, lookupSpace, he, hq, h]
        · simp [delSpace, lookupSpace, he, hq, ih]

theorem lookup_mem {ss : Spaces} {p : String} {sp : Space}
    (h : lookupSpace ss p = some sp) : (p, sp) ∈ ss := by
  induction ss with
  | nil => simp [lookupSpace] at h
  | cons e rest ih =>
      by_cases he : e.1 = p
      · simp [lookupSpace, he] at h
        cases e with
        | mk k v =>
            simp only at he h
            subst he
            subst h
            exact List.mem_cons_self _ _
      · simp [lookupSpace, he] at h
        exact List.mem_cons_of_mem _ (ih h)

theorem mem_setSpace {e : String × Space} {ss : Spaces} {p : String} {sp : Space}
    (h : e ∈ setSpace ss p sp) : e = (p, sp) ∨ e ∈ ss := by
  induction ss with
  | nil => simp [setSpace] at h; simp [h]
  | cons e1 rest ih =>
      by_cases he : e1.1 = p
      · simp only [setSpace, he, if_pos] at h
        rcases List.mem_cons.mp h with h1 | h1
        · exact Or.inl h1
        · exact Or.inr (List.mem_cons_of_mem _ h1)
      · simp only [setSpace, he, if_neg, ite_false] at h
        rcases List.mem_cons.mp h with h1 | h1
        · exact Or.inr (by simp [h1])
        · rcases ih h1 with h2 | h2
          · exact Or.inl h2
          · exact Or.inr (List.mem_cons_of_mem _ h2)

theorem mem_delSpace {e : String × Space} {ss : Spaces} {p : String}
    (h : e ∈ delSpace ss p) : e ∈ ss := by
  induction ss with
  | nil => simp [delSpace] at h
  | cons e1 rest ih =>
      by_cases he : e1.1 = p
      · simp only [delSpace, he, if_pos] at h
        exact List.mem_cons_of_mem _ (ih h)
      · simp only [delSpace, he, if_neg, ite_false] at h
        rcases List.mem_cons.mp h with h1 | h1
        · simp [h1]
        · exact List.mem_cons_of_mem _ (ih h1)

theorem set_set (ss : Spaces) (p : String) (sp1 sp2 : Space) :
    setSpace (setSpace ss p sp1) p sp2 = setSpace ss p sp2 := by
  induction ss with
  | nil => simp [setSpace]
  | cons e rest ih =>
      by_cases he : e.1 = p
      · simp [setSpace, he]
      · simp [setSpace, he, ih]

theorem lookup_none_of_not_mem {ss : Spaces} {p : String}
    (h : lookupSpace ss p = none) : ∀ e ∈ ss, e.1 ≠ p := by
  induction ss with
  | nil => simp
  | cons e1 rest ih =>
      by_cases he : e1.1 = p
      · simp [lookupSpace, he] at h
      · simp only [lookupSpace, he, if_neg, ite_false] at h
        intro e hm
        rcases List.mem_cons.mp hm with h1 | h1
        · simp [h1, he]
        · exact ih h e h1

/-! ### Space operation lemmas -/

theorem length_eraseFirst_le (r : Conn) (l : List Conn) :
    (eraseFirst r l).length ≤ l.length := by
  induction l with
  | nil => simp [eraseFirst]
  | cons x rest ih =>
      by_cases h : x = r
      · simp [eraseFirst, h]
      · simp only [eraseFirst, h, ite_false, List.length_cons]
        omega

theorem is_empty_iff (sp : Space) : sp.is_empty = true ↔ sp.requests = [] := by
  simp [Space.is_empty, List.length_eq_zero]

theorem is_full_false_iff (sp : Space) :
    sp.is_full = false ↔ sp.requests.length < 2 := by
  simp [Space.is_full]

theorem flushPending_ok (f : Conn → Bool) (r : Conn) (l : List (Conn × Json))
    (h : f r = false) :
    flushPending f r l = (l.map (fun e => Effect.send r (jnotify e.2)), false) := by
  induction l with
  | nil => simp [flushPending]
  | cons e rest ih => simp [flushPending, h, ih]

theorem flushPending_fail (f : Conn → Bool) (r : Conn) (l : List (Conn × Json))
    (h : f r = true) (hne : l ≠ []) : flushPending f r l = ([], true) := by
  cases l with
  | nil => simp at hne
  | cons e rest => simp [flushPending, h]

theorem isJStr_false {v : Json} {s : String} (h : v ≠ Json.str s) :
    isJStr v s = false := by
  cases v <;> simp_all [isJStr]

/-! ### Claim theorems: functional correctness of the hooks -/

/-- C2: a NOTIFY sent by the sole member of a session produces no
immediate delivery and appends (sender, data) to the pending queue; when a
second member then attaches via onopen, it is sent one NOTIFY per queued
entry in exactly the FIFO order of the queue, and the queue is left
empty. -/
theorem queue_then_flush
    (fails : Conn → Bool) (ss : Spaces) (a b : Conn) (sp : Space) (j d : Json)
    (hsp : lookupSpace ss a.path = some sp)
    (hreq : sp.requests = [a])
    (hm : jlookup j "method" = some (Json.str "NOTIFY"))
    (hd : jlookup j "data" = some d)
    (hb : b.path = a.path)
    (hfb : fails b = false) :
    onmessage fails ss a (some j)
      = ⟨setSpace ss a.path { sp with pending := sp.pending ++ [(a, d)] }, [], false⟩
    ∧ onopen fails (setSpace ss a.path { sp with pending := sp.pending ++ [(a, d)] }) b
      = ⟨setSpace (setSpace ss a.path { sp with pending := sp.pending ++ [(a, d)] })
           a.path (Space.mk sp.path (sp.requests ++ [b]) []),
         (sp.pending ++ [(a, d)]).map (fun e => Effect.send b (jnotify e.2)),
         false⟩ := by
  constructor
  · simp [onmessage, hm, isJStr, handleNotify, hsp, Space.get_other, hreq, filterNe, hd]
  · simp [onopen, hb, lookup_set_self, Space.add, flushPending_ok _ _ _ hfb]

/-- C3: with both members attached, a NOTIFY from one member, whether it
attached first or second, is forwarded as exactly one NOTIFY message
carrying the identical data value to the other member, within the same
hook invocation (hence before any further message from the sender is
processed), and the registry state, in particular the pending queue, is
unchanged. -/
theorem immediate_relay
    (fails : Conn → Bool) (ss : Spaces) (a b : Conn) (sp : Space) (j d : Json)
    (hsp : lookupSpace ss a.path = some sp)
    (hreq : sp.requests = [a, b] ∨ sp.requests = [b, a])
    (hab : a ≠ b)
    (hm : jlookup j "method" = some (Json.str "NOTIFY"))
    (hd : jlookup j "data" = some d)
    (hfb : fails b = false) :
    onmessage fails ss a (some j) = ⟨ss, [Effect.send b (jnotify d)], false⟩ := by
  have hba : ¬ b = a := fun hh => hab hh.symm
  rcases hreq with hreq | hreq <;>
    simp [onmessage, hm, isJStr, handleNotify, hsp, Space.get_other, hreq, filterNe,
          hba, hd, hfb]

/-- C4: closing one of the two attached members of a session detaches
both, force-closes the other member, and removes the session identifier
from the registry. -/
theorem cascade_close
    (ss : Spaces) (a b : Conn) (sp : Space)
    (hsp : lookupSpace ss a.path = some sp)
    (hreq : sp.requests = [a, b])
    (hab : a ≠ b) :
    onclose ss a = (delSpace ss a.path, [Effect.close b])
    ∧ lookupSpace (delSpace ss a.path) a.path = none
    ∧ (b.path = a.path → onclose ss b = (delSpace ss a.path, [Effect.close a])) := by
  have hba : ¬ b = a := fun hh => hab hh.symm
  refine ⟨?_, lookup_del_self ss a.path, fun hbp => ?_⟩
  · simp [onclose, hsp, Space.get_other, hreq, filterNe, hba, Space.remove,
          eraseFirst, Space.is_empty]
  · simp [onclose, hbp, hsp, Space.get_other, hreq, filterNe, hab, hba, Space.remove,
          eraseFirst, Space.is_empty]

/-- C5: when the sole member of a session closes, every pending entry it
queued is discarded with the whole session (the registry loses the
identifier), and a member attaching later under the same identifier gets
an empty flush: no send effects at its onopen. -/
theorem discard_on_sender_exit
    (fails : Conn → Bool) (ss : Spaces) (a b : Conn) (sp : Space)
    (hsp : lookupSpace ss a.path = some sp)
    (hreq : sp.requests = [a])
    (hbp : b.path = a.path) :
    onclose ss a = (delSpace ss a.path, [])
    ∧ onopen fails (delSpace ss a.path) b
      = ⟨setSpace (delSpace ss a.path) a.path (Space.mk a.path [b] []), [], false⟩ := by
  constructor
  · simp [onclose, hsp, Space.get_other, hreq, filterNe, Space.remove, eraseFirst,
          Space.is_empty]
  · simp [onopen, hbp, lookup_del_self, Space.add, flushPending]

/-- C6: a GET for /peerconnection is answered to the sender only, with no
state change; the result field always carries the same static
configuration constant, and the response has a msg_id exactly when the
request has one, with the same value. -/
theorem config_idempotent
    (fails : Conn → Bool) (ss : Spaces) (req : Conn) (j : Json)
    (hm : jlookup j "method" = some (Json.str "GET"))
    (hr : jlookup j "resource" = some (Json.str "/peerconnection"))
    (hf : fails req = false) :
    onmessage fails ss req (some j) = ⟨ss, [Effect.send req (getResponse j)], false⟩
    ∧ jlookup (getResponse j) "result"
        = some (Json.obj [("configuration", configuration)])
    ∧ jlookup (getResponse j) "msg_id" = jlookup j "msg_id" := by
  refine ⟨?_, ?_, ?_⟩
  · simp [onmessage, hm, hr, isJStr, hf]
  · unfold getResponse
    cases jlookup j "msg_id" <;> simp [jlookup, lookupField]
  · unfold getResponse
    cases h : jlookup j "msg_id" <;> simp [jlookup, lookupField]

/-- C9 amended: a close hook for a connection whose session identifier is
absent from the registry (in particular the re-entrant close of a peer the
core itself cascade-closed, when nothing attached in between) is a strict
no-op: no registry change and no effects. -/
theorem onclose_noop_when_absent (ss : Spaces) (c : Conn)
    (h : lookupSpace ss c.path = none) : onclose ss c = (ss, []) := by
  simp [onclose, h]

/-- Witness for onclose_noop_when_absent at a concrete input. -/
theorem onclose_noop_when_absent_witness :
    lookupSpace [] (Conn.mk 1 "p").path = none
    ∧ onclose [] (Conn.mk 1 "p") = ([], []) :=
  ⟨rfl, onclose_noop_when_absent [] (Conn.mk 1 "p") rfl⟩

/-- C9 counterexample: connection 0 and 1 share session p; closing 0
cascade-closes 1 and deletes p; connection 2 then attaches to p; when the
transport now delivers the close hook of 1 (its second close processing),
that second onclose is NOT a no-op: it force-closes connection 2 and
deletes the fresh session of 2 from the registry. -/
theorem second_onclose_not_idempotent :
    run [Call.opened (Conn.mk 0 "p") noFail, Call.opened (Conn.mk 1 "p") noFail,
         Call.closed (Conn.mk 0 "p"), Call.opened (Conn.mk 2 "p") noFail]
      = [("p", Space.mk "p" [Conn.mk 2 "p"] [])]
    ∧ onclose [("p", Space.mk "p" [Conn.mk 2 "p"] [])] (Conn.mk 1 "p")
      = ([], [Effect.close (Conn.mk 2 "p")]) :=
  ⟨rfl, rfl⟩

/-- C10: a raising send during the onopen flush escapes the hook
(err = true), leaves the pending queue uncleared and the new connection
attached; by contrast a raising send while forwarding a NOTIFY between two
attached members is swallowed: no error, no effects, no state change. -/
theorem open_flush_failure_propagates
    (fails : Conn → Bool) (ss ss2 : Spaces) (b a o : Conn) (sp sp2 : Space)
    (j d : Json)
    (h1 : lookupSpace ss b.path = some sp)
    (h2 : sp.pending ≠ [])
    (h3 : fails b = true)
    (h4 : lookupSpace ss2 a.path = some sp2)
    (h5 : sp2.requests = [a, o])
    (h6 : a ≠ o)
    (h7 : jlookup j "method" = some (Json.str "NOTIFY"))
    (h8 : jlookup j "data" = some d)
    (h9 : fails o = true) :
    onopen fails ss b = ⟨setSpace ss b.path (sp.add b), [], true⟩
    ∧ onmessage fails ss2 a (some j) = ⟨ss2, [], false⟩ := by
  have hoa : ¬ o = a := fun hh => h6 hh.symm
  constructor
  · simp [onopen, h1, Space.add, flushPending_fail _ _ _ h3 h2]
  · simp [onmessage, h7, isJStr, handleNotify, h4, Space.get_other, h5, filterNe,
          hoa, h8, h9]

/-- C7 counterexample: a parseable message that merely misses a required
field (a GET without resource) is not a logged no-op: the hook raises
KeyError (err = true) and the transport closes the connection, exactly as
for an unparsable payload. -/
theorem missing_resource_closes_connection :
    onmessage noFail [] (Conn.mk 0 "p")
        (some (Json.obj [("method", Json.str "GET")])) = ⟨[], [], true⟩
    ∧ handleMessage noFail [] (Conn.mk 0 "p")
        (some (Json.obj [("method", Json.str "GET")]))
      = ([], [Effect.close (Conn.mk 0 "p")]) :=
  ⟨rfl, rfl⟩

/-- C7 amended: a parseable message whose method is neither GET nor NOTIFY
is a no-op that leaves the connection open; an unparsable payload, a
message without a method field, and a GET without a resource field all
raise out of the hook, upon which the transport closes the connection. -/
theorem unknown_method_ignored_missing_field_closes :
    (∀ (fails : Conn → Bool) (ss : Spaces) (req : Conn) (j m : Json),
        jlookup j "method" = some m → m ≠ Json.str "GET" → m ≠ Json.str "NOTIFY" →
        handleMessage fails ss req (some j) = (ss, []))
    ∧ (∀ (fails : Conn → Bool) (ss : Spaces) (req : Conn),
        handleMessage fails ss req none = (ss, [Effect.close req]))
    ∧ (∀ (fails : Conn → Bool) (ss : Spaces) (req : Conn) (j : Json),
        jlookup j "method" = none →
        handleMessage fails ss req (some j) = (ss, [Effect.close req]))
    ∧ (∀ (fails : Conn → Bool) (ss : Spaces) (req : Conn) (j : Json),
        jlookup j "method" = some (Json.str "GET") → jlookup j "resource" = none →
        handleMessage fails ss req (some j) = (ss, [Effect.close req])) := by
  refine ⟨?_, ?_, ?_, ?_⟩
  · intro fails ss req j m hm hg hn
    simp [handleMessage, onmessage, hm, isJStr_false hg, isJStr_false hn]
  · intro fails ss req
    simp [handleMessage, onmessage]
  · intro fails ss req j hm
    simp [handleMessage, onmessage, hm]
  · intro fails ss req j hm hr
    simp [handleMessage, onmessage, hm, hr, isJStr]

/-- Witness for unknown_method_ignored_missing_field_closes at concrete
inputs: an unknown method PUT is ignored; a parse failure, a message with
no method, and a GET without resource each close the connection. -/
theorem unknown_method_ignored_missing_field_closes_witness :
    handleMessage noFail [] (Conn.mk 0 "p")
        (some (Json.obj [("method", Json.str "PUT")])) = ([], [])
    ∧ handleMessage noFail [] (Conn.mk 0 "p") none
      = ([], [Effect.close (Conn.mk 0 "p")])
    ∧ handleMessage noFail [] (Conn.mk 0 "p") (some (Json.arr []))
      = ([], [Effect.close (Conn.mk 0 "p")])
    ∧ handleMessage noFail [] (Conn.mk 0 "p")
        (some (Json.obj [("method", Json.str "GET"), ("msg_id", Json.num 7)]))
      = ([], [Effect.close (Conn.mk 0 "p")]) :=
  ⟨unknown_method_ignored_missing_field_closes.1 noFail [] (Conn.mk 0 "p") _ _
      rfl (by simp) (by simp),
   unknown_method_ignored_missing_field_closes.2.1 noFail [] (Conn.mk 0 "p"),
   unknown_method_ignored_missing_field_closes.2.2.1 noFail [] (Conn.mk 0 "p") _ rfl,
   unknown_method_ignored_missing_field_closes.2.2.2 noFail [] (Conn.mk 0 "p") _
      rfl rfl⟩

/-- Witness for queue_then_flush: one queued offer is flushed, in order,
to the member attaching second, and the queue ends empty. -/
theorem queue_then_flush_witness :
    onmessage noFail [("p", Space.mk "p" [Conn.mk 0 "p"] [])] (Conn.mk 0 "p")
        (some (Json.obj [("method", Json.str "NOTIFY"), ("data", Json.str "offer")]))
      = ⟨[("p", Space.mk "p" [Conn.mk 0 "p"] [(Conn.mk 0 "p", Json.str "offer")])],
         [], false⟩
    ∧ onopen noFail
        [("p", Space.mk "p" [Conn.mk 0 "p"] [(Conn.mk 0 "p", Json.str "offer")])]
        (Conn.mk 1 "p")
      = ⟨[("p", Space.mk "p" [Conn.mk 0 "p", Conn.mk 1 "p"] [])],
         [Effect.send (Conn.mk 1 "p") (jnotify (Json.str "offer"))], false⟩ :=
  queue_then_flush noFail [("p", Space.mk "p" [Conn.mk 0 "p"] [])]
    (Conn.mk 0 "p") (Conn.mk 1 "p") (Space.mk "p" [Conn.mk 0 "p"] [])
    (Json.obj [("method", Json.str "NOTIFY"), ("data", Json.str "offer")])
    (Json.str "offer") rfl rfl rfl rfl rfl rfl

/-- Witness for immediate_relay at a concrete two-member session, in both
directions: the first-attached member relays to the second, and the
second-attached member relays to the first. -/
theorem immediate_relay_witness :
    onmessage noFail [("p", Space.mk "p" [Conn.mk 0 "p", Conn.mk 1 "p"] [])]
        (Conn.mk 0 "p")
        (some (Json.obj [("method", Json.str "NOTIFY"), ("data", Json.str "cand")]))
      = ⟨[("p", Space.mk "p" [Conn.mk 0 "p", Conn.mk 1 "p"] [])],
         [Effect.send (Conn.mk 1 "p") (jnotify (Json.str "cand"))], false⟩
    ∧ onmessage noFail [("p", Space.mk "p" [Conn.mk 0 "p", Conn.mk 1 "p"] [])]
        (Conn.mk 1 "p")
        (some (Json.obj [("method", Json.str "NOTIFY"), ("data", Json.str "ans")]))
      = ⟨[("p", Space.mk "p" [Conn.mk 0 "p", Conn.mk 1 "p"] [])],
         [Effect.send (Conn.mk 0 "p") (jnotify (Json.str "ans"))], false⟩ :=
  ⟨immediate_relay noFail [("p", Space.mk "p" [Conn.mk 0 "p", Conn.mk 1 "p"] [])]
      (Conn.mk 0 "p") (Conn.mk 1 "p")
      (Space.mk "p" [Conn.mk 0 "p", Conn.mk 1 "p"] [])
      (Json.obj [("method", Json.str "NOTIFY"), ("data", Json.str "cand")])
      (Json.str "cand") rfl (Or.inl rfl) (by decide) rfl rfl rfl,
   immediate_relay noFail [("p", Space.mk "p" [Conn.mk 0 "p", Conn.mk 1 "p"] [])]
      (Conn.mk 1 "p") (Conn.mk 0 "p")
      (Space.mk "p" [Conn.mk 0 "p", Conn.mk 1 "p"] [])
      (Json.obj [("method", Json.str "NOTIFY"), ("data", Json.str "ans")])
      (Json.str "ans") rfl (Or.inr rfl) (by decide) rfl rfl rfl⟩

/-- Witness for cascade_close at a concrete two-member session. -/
theorem cascade_close_witness :
    onclose [("p", Space.mk "p" [Conn.mk 0 "p", Conn.mk 1 "p"] [])] (Conn.mk 0 "p")
      = ([], [Effect.close (Conn.mk 1 "p")])
    ∧ lookupSpace [] "p" = none
    ∧ onclose [("p", Space.mk "p" [Conn.mk 0 "p", Conn.mk 1 "p"] [])] (Conn.mk 1 "p")
      = ([], [Effect.close (Conn.mk 0 "p")]) :=
  have h := cascade_close [("p", Space.mk "p" [Conn.mk 0 "p", Conn.mk 1 "p"] [])]
    (Conn.mk 0 "p") (Conn.mk 1 "p")
    (Space.mk "p" [Conn.mk 0 "p", Conn.mk 1 "p"] []) rfl rfl (by decide)
  ⟨h.1, h.2.1, h.2.2 rfl⟩

/-- Witness for discard_on_sender_exit: the sole sender leaves with a
queued offer; a later member attaches to a fresh session and gets no
payloads. -/
theorem discard_on_sender_exit_witness :
    onclose [("p", Space.mk "p" [Conn.mk 0 "p"] [(Conn.mk 0 "p", Json.str "offer")])]
        (Conn.mk 0 "p")
      = ([], [])
    ∧ onopen noFail [] (Conn.mk 1 "p")
      = ⟨[("p", Space.mk "p" [Conn.mk 1 "p"] [])], [], false⟩ :=
  discard_on_sender_exit noFail
    [("p", Space.mk "p" [Conn.mk 0 "p"] [(Conn.mk 0 "p", Json.str "offer")])]
    (Conn.mk 0 "p") (Conn.mk 1 "p")
    (Space.mk "p" [Conn.mk 0 "p"] [(Conn.mk 0 "p", Json.str "offer")]) rfl rfl rfl

/-- Witness for config_idempotent with a msg_id-carrying request. -/
theorem config_idempotent_witness :
    onmessage noFail [] (Conn.mk 0 "p")
        (some (Json.obj [("method", Json.str "GET"), ("msg_id", Json.num 1),
                         ("resource", Json.str "/peerconnection")]))
      = ⟨[], [Effect.send (Conn.mk 0 "p")
               (getResponse (Json.obj [("method", Json.str "GET"),
                                       ("msg_id", Json.num 1),
                                       ("resource", Json.str "/peerconnection")]))],
         false⟩
    ∧ jlookup (getResponse (Json.obj [("method", Json.str "GET"),
                                      ("msg_id", Json.num 1),
                                      ("resource", Json.str "/peerconnection")]))
        "result" = some (Json.obj [("configuration", configuration)])
    ∧ jlookup (getResponse (Json.obj [("method", Json.str "GET"),
                                      ("msg_id", Json.num 1),
                                      ("resource", Json.str "/peerconnection")]))
        "msg_id"
      = jlookup (Json.obj [("method", Json.str "GET"), ("msg_id", Json.num 1),
                           ("resource", Json.str "/peerconnection")]) "msg_id" :=
  config_idempotent noFail [] (Conn.mk 0 "p")
    (Json.obj [("method", Json.str "GET"), ("msg_id", Json.num 1),
               ("resource", Json.str "/peerconnection")]) rfl rfl rfl

/-- Witness for open_flush_failure_propagates: a failing flush leaves the
queue intact and raises; a failing NOTIFY forward is swallowed. -/
theorem open_flush_failure_propagates_witness :
    onopen allFail [("p", Space.mk "p" [Conn.mk 0 "p"] [(Conn.mk 0 "p", Json.str "x")])]
        (Conn.mk 1 "p")
      = ⟨[("p", Space.mk "p" [Conn.mk 0 "p", Conn.mk 1 "p"]
            [(Conn.mk 0 "p", Json.str "x")])], [], true⟩
    ∧ onmessage allFail [("q", Space.mk "q" [Conn.mk 3 "q", Conn.mk 4 "q"] [])]
        (Conn.mk 3 "q")
        (some (Json.obj [("method", Json.str "NOTIFY"), ("data", Json.str "y")]))
      = ⟨[("q", Space.mk "q" [Conn.mk 3 "q", Conn.mk 4 "q"] [])], [], false⟩ :=
  open_flush_failure_propagates allFail
    [("p", Space.mk "p" [Conn.mk 0 "p"] [(Conn.mk 0 "p", Json.str "x")])]
    [("q", Space.mk "q" [Conn.mk 3 "q", Conn.mk 4 "q"] [])]
    (Conn.mk 1 "p") (Conn.mk 3 "q") (Conn.mk 4 "q")
    (Space.mk "p" [Conn.mk 0 "p"] [(Conn.mk 0 "p", Json.str "x")])
    (Space.mk "q" [Conn.mk 3 "q", Conn.mk 4 "q"] [])
    (Json.obj [("method", Json.str "NOTIFY"), ("data", Json.str "y")])
    (Json.str "y") rfl (by simp) rfl rfl rfl (by decide) rfl rfl rfl

/-! ### Capacity invariant (C1) -/

/-- Every session in the registry has at most 2 attached members. -/
def capped (ss : Spaces) : Prop := ∀ e ∈ ss, e.2.requests.length ≤ 2

/-- The registry after onopen: the Space at the path (or a fresh one) with
the request appended, stored back at the path; only the pending field
depends on the flush outcome. -/
theorem onopen_spaces_cases (f : Conn → Bool) (ss : Spaces) (c : Conn) :
    ∃ sp0 pend,
      (lookupSpace ss c.path = some sp0 ∨
        (lookupSpace ss c.path = none ∧ sp0 = Space.mk c.path [] []))
      ∧ (onopen f ss c).spaces
          = setSpace ss c.path (Space.mk sp0.path (sp0.requests ++ [c]) pend) := by
  unfold onopen
  cases hlk : lookupSpace ss c.path with
  | some sp =>
      dsimp [Space.add]
      split
      · exact ⟨sp, sp.pending, Or.inl rfl, rfl⟩
      · exact ⟨sp, [], Or.inl rfl, rfl⟩
  | none =>
      dsimp [Space.add]
      split
      · exact ⟨Space.mk c.path [] [], [], Or.inr ⟨rfl, rfl⟩, rfl⟩
      · exact ⟨Space.mk c.path [] [], [], Or.inr ⟨rfl, rfl⟩, rfl⟩

theorem not_full_of_handshake_ok {ss : Spaces} {p : String} {sp : Space}
    (hok : onhandshake ss p = Except.ok ()) (hlk : lookupSpace ss p = some sp) :
    sp.requests.length < 2 := by
  unfold onhandshake at hok
  rw [hlk] at hok
  by_cases hf : sp.is_full = true
  · simp [hf] at hok
  · exact (is_full_false_iff sp).mp (by simpa using hf)

theorem capped_onopen {f : Conn → Bool} {ss : Spaces} {c : Conn}
    (hcap : capped ss) (hok : onhandshake ss c.path = Except.ok ()) :
    capped (onopen f ss c).spaces := by
  obtain ⟨sp0, pend, hbase, hshape⟩ := onopen_spaces_cases f ss c
  rw [hshape]
  intro e he
  rcases mem_setSpace he with rfl | hmem
  · have hlt : sp0.requests.length < 2 := by
      rcases hbase with hlk | ⟨hlk, hsp0⟩
      · exact not_full_of_handshake_ok hok hlk
      · simp [hsp0]
    simp only [List.length_append, List.length_cons, List.length_nil]
    omega
  · exact hcap e hmem

theorem capped_handleNotify (f : Conn → Bool) (ss : Spaces) (req : Conn) (j : Json)
    (hcap : capped ss) : capped (handleNotify f ss req j).spaces := by
  unfold handleNotify
  cases hlk : lookupSpace ss req.path with
  | some sp =>
      dsimp only
      have hsp : sp.requests.length ≤ 2 := hcap (req.path, sp) (lookup_mem hlk)
      cases sp.get_other req with
      | some o =>
          dsimp only
          cases jlookup j "data" with
          | none => exact hcap
          | some d =>
              dsimp only
              split
              · exact hcap
              · exact hcap
      | none =>
          dsimp only
          cases jlookup j "data" with
          | none => exact hcap
          | some d =>
              dsimp only
              intro e he
              rcases mem_setSpace he with rfl | hm
              · simpa using hsp
              · exact hcap e hm
  | none =>
      dsimp only [Space.get_other, filterNe]
      cases jlookup j "data" with
      | none =>
          dsimp only
          intro e he
          rcases mem_setSpace he with rfl | hm
          · simp
          · exact hcap e hm
      | some d =>
          dsimp only
          rw [set_set]
          intro e he
          rcases mem_setSpace he with rfl | hm
          · simp
          · exact hcap e hm

theorem capped_onmessage (f : Conn → Bool) (ss : Spaces) (req : Conn)
    (raw : Option Json) (hcap : capped ss) :
    capped (onmessage f ss req raw).spaces := by
  unfold onmessage
  cases raw with
  | none => exact hcap
  | some j =>
      dsimp only
      cases jlookup j "method" with
      | none => exact hcap
      | some m =>
          dsimp only
          split
          · cases jlookup j "resource" with
            | none => exact hcap
            | some r =>
                dsimp only
                split
                · split
                  · exact hcap
                  · exact hcap
                · exact hcap
          · split
            · exact capped_handleNotify f ss req j hcap
            · exact hcap

theorem capped_onclose (ss : Spaces) (req : Conn) (hcap : capped ss) :
    capped (onclose ss req).1 := by
  unfold onclose
  cases hlk : lookupSpace ss req.path with
  | none => exact hcap
  | some sp =>
      dsimp only
      have hsp : sp.requests.length ≤ 2 := hcap (req.path, sp) (lookup_mem hlk)
      cases sp.get_other req with
      | some o =>
          dsimp only
          split
          · intro e he
            exact hcap e (mem_delSpace he)
          · intro e he
            rcases mem_setSpace he with rfl | hm
            · dsimp only [Space.remove]
              calc (eraseFirst o (eraseFirst req sp.requests)).length
                  ≤ (eraseFirst req sp.requests).length := length_eraseFirst_le o _
                _ ≤ sp.requests.length := length_eraseFirst_le req _
                _ ≤ 2 := hsp
            · exact hcap e hm
      | none =>
          dsimp only
          split
          · intro e he
            exact hcap e (mem_delSpace he)
          · intro e he
            rcases mem_setSpace he with rfl | hm
            · dsimp only [Space.remove]
              calc (eraseFirst req sp.requests).length
                  ≤ sp.requests.length := length_eraseFirst_le req _
                _ ≤ 2 := hsp
            · exact hcap e hm

theorem capped_stepA (ss : Spaces) (k : ACall) (hcap : capped ss) :
    capped (stepA ss k) := by
  cases k with
  | connect c f =>
      unfold stepA
      dsimp only
      cases hok : onhandshake ss c.path with
      | error e => exact hcap
      | ok u =>
          cases u
          dsimp only
          exact capped_onopen hcap hok
  | message c raw f => exact capped_onmessage f ss c raw hcap
  | closed c => exact capped_onclose ss c hcap

theorem capped_foldlA (tr : List ACall) :
    ∀ ss, capped ss → capped (tr.foldl stepA ss) := by
  induction tr with
  | nil => intro ss h; exact h
  | cons k rest ih =>
      intro ss h
      exact ih _ (capped_stepA ss k h)

theorem capped_runA (tr : List ACall) : capped (runA tr) :=
  capped_foldlA tr [] (by intro e he; cases he)

/-- C1 amended: under atomic admission, where an accepted handshake is
immediately followed by the open of that connection, every session in
every reachable registry has at most 2 attached members; and a handshake
for a session that already has 2 members raises the HTTPError (the gate
itself is pure and never mutates the registry). -/
theorem capacity_two_under_atomic_admission :
    (∀ (tr : List ACall) (e : String × Space),
        e ∈ runA tr → e.2.requests.length ≤ 2)
    ∧ (∀ (ss : Spaces) (p : String) (sp : Space),
        lookupSpace ss p = some sp → sp.is_full = true →
        onhandshake ss p = Except.error "400 Bad Request - Space Full") := by
  constructor
  · intro tr e he
    exact capped_runA tr e he
  · intro ss p sp hlk hfull
    simp [onhandshake, hlk, hfull]

/-- Witness for capacity_two_under_atomic_admission: a session reached by
two atomic connects has 2 members, and a handshake against a full session
is rejected with the HTTPError. -/
theorem capacity_two_under_atomic_admission_witness :
    (("p", Space.mk "p" [Conn.mk 0 "p", Conn.mk 1 "p"] []) :
        String × Space).2.requests.length ≤ 2
    ∧ onhandshake [("p", Space.mk "p" [Conn.mk 0 "p", Conn.mk 1 "p"] [])] "p"
      = Except.error "400 Bad Request - Space Full" :=
  ⟨capacity_two_under_atomic_admission.1
      [ACall.connect (Conn.mk 0 "p") noFail, ACall.connect (Conn.mk 1 "p") noFail]
      ("p", Space.mk "p" [Conn.mk 0 "p", Conn.mk 1 "p"] []) (List.Mem.head _),
   capacity_two_under_atomic_admission.2
      [("p", Space.mk "p" [Conn.mk 0 "p", Conn.mk 1 "p"] [])] "p"
      (Space.mk "p" [Conn.mk 0 "p", Conn.mk 1 "p"] []) rfl rfl⟩

/-- C1 counterexample: a trace that respects the transport contract as
stated (each handshake strictly before the matching open, all handshakes
accepted at their point) but interleaves three admissions reaches a
session with 3 simultaneously attached members: the capacity bound fails
because onopen never re-checks capacity. -/
theorem capacity_violated_by_interleaved_admission :
    contract
      [Call.handshake (Conn.mk 0 "p"), Call.opened (Conn.mk 0 "p") noFail,
       Call.handshake (Conn.mk 1 "p"), Call.handshake (Conn.mk 2 "p"),
       Call.opened (Conn.mk 1 "p") noFail, Call.opened (Conn.mk 2 "p") noFail]
      = true
    ∧ (lookupSpace (run
        [Call.handshake (Conn.mk 0 "p"), Call.opened (Conn.mk 0 "p") noFail,
         Call.handshake (Conn.mk 1 "p"), Call.handshake (Conn.mk 2 "p"),
         Call.opened (Conn.mk 1 "p") noFail, Call.opened (Conn.mk 2 "p") noFail])
        "p").map (fun sp => sp.requests.length) = some 3 :=
  ⟨rfl, rfl⟩
/-! ### Liveness invariant and deletion discipline (C8) -/

/-- Every session in the registry has a member or a pending entry. -/
def live (ss : Spaces) : Prop := ∀ e ∈ ss, e.2.requests ≠ [] ∨ e.2.pending ≠ []

/-- A NOTIFY message in this call carries a data field. -/
def goodCall : Call → Prop
  | .message _ raw _ =>
      ∀ j, raw = some j → jlookup j "method" = some (Json.str "NOTIFY") →
        (jlookup j "data").isSome = true
  | _ => True

/-- Every NOTIFY message delivered in the trace carries a data field. -/
def goodTrace (tr : List Call) : Prop := ∀ k ∈ tr, goodCall k

theorem isJStr_true_iff (v : Json) (s : String) :
    isJStr v s = true ↔ v = Json.str s := by
  cases v <;> simp [isJStr]

theorem live_onopen (f : Conn → Bool) (ss : Spaces) (c : Conn) (hl : live ss) :
    live (onopen f ss c).spaces := by
  obtain ⟨sp0, pend, _, hshape⟩ := onopen_spaces_cases f ss c
  rw [hshape]
  intro e he
  rcases mem_setSpace he with rfl | hm
  · left
    simp
  · exact hl e hm

theorem live_handleNotify (f : Conn → Bool) (ss : Spaces) (req : Conn) (j : Json)
    (hl : live ss) (hd : (jlookup j "data").isSome = true) :
    live (handleNotify f ss req j).spaces := by
  obtain ⟨d, hdd⟩ := Option.isSome_iff_exists.mp hd
  unfold handleNotify
  cases hlk : lookupSpace ss req.path with
  | some sp =>
      dsimp only
      cases sp.get_other req with
      | some o =>
          dsimp only
          rw [hdd]
          dsimp only
          split
          · exact hl
          · exact hl
      | none =>
          dsimp only
          rw [hdd]
          dsimp only
          intro e he
          rcases mem_setSpace he with rfl | hm
          · right
            simp
          · exact hl e hm
  | none =>
      dsimp only [Space.get_other, filterNe]
      rw [hdd]
      dsimp only
      rw [set_set]
      intro e he
      rcases mem_setSpace he with rfl | hm
      · right
        simp
      · exact hl e hm

theorem live_onmessage (f : Conn → Bool) (ss : Spaces) (req : Conn)
    (raw : Option Json) (hl : live ss)
    (hgood : ∀ j, raw = some j → jlookup j "method" = some (Json.str "NOTIFY") →
        (jlookup j "data").isSome = true) :
    live (onmessage f ss req raw).spaces := by
  unfold onmessage
  cases raw with
  | none => exact hl
  | some j =>
      dsimp only
      cases hm : jlookup j "method" with
      | none => exact hl
      | some m =>
          dsimp only
          split
          · cases jlookup j "resource" with
            | none => exact hl
            | some r =>
                dsimp only
                split
                · split
                  · exact hl
                  · exact hl
                · exact hl
          · split
            · next hn =>
                have hmn : m = Json.str "NOTIFY" := (isJStr_true_iff m "NOTIFY").mp hn
                exact live_handleNotify f ss req j hl (hgood j rfl (hmn ▸ hm))
            · exact hl

theorem live_onclose (ss : Spaces) (req : Conn) (hl : live ss) :
    live (onclose ss req).1 := by
  unfold onclose
  cases hlk : lookupSpace ss req.path with
  | none => exact hl
  | some sp =>
      dsimp only
      cases sp.get_other req with
      | some o =>
          dsimp only
          split
          · intro e he
            exact hl e (mem_delSpace he)
          · next h =>
              intro e he
              rcases mem_setSpace he with rfl | hm
              · left
                intro hcon
                exact h ((is_empty_iff _).mpr hcon)
              · exact hl e hm
      | none =>
          dsimp only
          split
          · intro e he
            exact hl e (mem_delSpace he)
          · next h =>
              intro e he
              rcases mem_setSpace he with rfl | hm
              · left
                intro hcon
                exact h ((is_empty_iff _).mpr hcon)
              · exact hl e hm

theorem live_step (ss : Spaces) (k : Call) (hl : live ss) (hg : goodCall k) :
    live (step ss k) := by
  cases k with
  | handshake c => exact hl
  | opened c f => exact live_onopen f ss c hl
  | message c raw f => exact live_onmessage f ss c raw hl hg
  | closed c => exact live_onclose ss c hl

theorem live_foldl (tr : List Call) :
    ∀ ss, live ss → (∀ k ∈ tr, goodCall k) → live (tr.foldl step ss) := by
  induction tr with
  | nil => intro ss h _; exact h
  | cons k rest ih =>
      intro ss h hg
      exact ih _ (live_step ss k h (hg k (List.mem_cons_self k rest)))
        (fun x hx => hg x (List.mem_cons_of_mem k hx))

/-- The member list left after the removals onclose performs for a given
closing request (the other member is removed too when present). -/
def postCloseRequests (sp : Space) (c : Conn) : List Conn :=
  match sp.get_other c with
  | some o => ((sp.remove c).remove o).requests
  | none => (sp.remove c).requests

theorem lookup_isSome_set (ss : Spaces) (p q : String) (sp : Space)
    (h : (lookupSpace ss q).isSome = true) :
    (lookupSpace (setSpace ss p sp) q).isSome = true := by
  by_cases hpq : q = p
  · subst hpq
    simp [lookup_set_self]
  · rw [lookup_set_ne ss p q sp hpq]
    exact h

theorem lookup_isSome_handleNotify (f : Conn → Bool) (ss : Spaces) (req : Conn)
    (j : Json) (p : String) (h : (lookupSpace ss p).isSome = true) :
    (lookupSpace (handleNotify f ss req j).spaces p).isSome = true := by
  unfold handleNotify
  cases hlk : lookupSpace ss req.path with
  | some sp =>
      dsimp only
      cases sp.get_other req with
      | some o =>
          dsimp only
          cases jlookup j "data" with
          | none => exact h
          | some d =>
              dsimp only
              split
              · exact h
              · exact h
      | none =>
          dsimp only
          cases jlookup j "data" with
          | none => exact h
          | some d =>
              dsimp only
              exact lookup_isSome_set ss req.path p _ h
  | none =>
      dsimp only [Space.get_other, filterNe]
      cases jlookup j "data" with
      | none =>
          dsimp only
          exact lookup_isSome_set ss req.path p _ h
      | some d =>
          dsimp only
          rw [set_set]
          exact lookup_isSome_set ss req.path p _ h

theorem lookup_isSome_onmessage (f : Conn → Bool) (ss : Spaces) (req : Conn)
    (raw : Option Json) (p : String) (h : (lookupSpace ss p).isSome = true) :
    (lookupSpace (onmessage f ss req raw).spaces p).isSome = true := by
  unfold onmessage
  cases raw with
  | none => exact h
  | some j =>
      dsimp only
      cases jlookup j "method" with
      | none => exact h
      | some m =>
          dsimp only
          split
          · cases jlookup j "resource" with
            | none => exact h
            | some r =>
                dsimp only
                split
                · split
                  · exact h
                  · exact h
                · exact h
          · split
            · exact lookup_isSome_handleNotify f ss req j p h
            · exact h

/-- C8 amended: along any hook trace whose NOTIFY messages all carry a
data field, every session present in the registry has at least one member
or at least one pending entry; moreover a session is removed by onclose
exactly when its member list is empty after the removals onclose performs,
and neither onopen (a queue flush included) nor onmessage ever removes a
registry entry. -/
theorem registry_liveness_and_deletion :
    (∀ (tr : List Call), goodTrace tr →
        ∀ e ∈ run tr, e.2.requests ≠ [] ∨ e.2.pending ≠ [])
    ∧ (∀ (ss : Spaces) (c : Conn) (sp : Space),
        lookupSpace ss c.path = some sp →
        (lookupSpace (onclose ss c).1 c.path = none ↔ postCloseRequests sp c = []))
    ∧ (∀ (f : Conn → Bool) (ss : Spaces) (c : Conn) (p : String),
        (lookupSpace ss p).isSome = true →
        (lookupSpace (onopen f ss c).spaces p).isSome = true)
    ∧ (∀ (f : Conn → Bool) (ss : Spaces) (c : Conn) (raw : Option Json) (p : String),
        (lookupSpace ss p).isSome = true →
        (lookupSpace (onmessage f ss c raw).spaces p).isSome = true) := by
  refine ⟨?_, ?_, ?_, ?_⟩
  · intro tr hg e he
    exact live_foldl tr [] (by intro x hx; cases hx) hg e he
  · intro ss c sp hlk
    unfold onclose postCloseRequests
    rw [hlk]
    dsimp only
    cases sp.get_other c with
    | some o =>
        dsimp only
        split
        · next h =>
            simp [lookup_del_self, (is_empty_iff _).mp h]
        · next h =>
            have hne : ((sp.remove c).remove o).requests ≠ [] := by
              intro hcon
              exact h ((is_empty_iff _).mpr hcon)
            simp [lookup_set_self, hne]
    | none =>
        dsimp only
        split
        · next h =>
            simp [lookup_del_self, (is_empty_iff _).mp h]
        · next h =>
            have hne : (sp.remove c).requests ≠ [] := by
              intro hcon
              exact h ((is_empty_iff _).mpr hcon)
            simp [lookup_set_self, hne]
  · intro f ss c p h
    obtain ⟨sp0, pend, _, hshape⟩ := onopen_spaces_cases f ss c
    rw [hshape]
    exact lookup_isSome_set ss c.path p _ h
  · intro f ss c raw p h
    exact lookup_isSome_onmessage f ss c raw p h

/-- Witness for registry_liveness_and_deletion at concrete inputs. -/
theorem registry_liveness_and_deletion_witness :
    ((("p", Space.mk "p" [Conn.mk 0 "p"] []) : String × Space).2.requests ≠ []
      ∨ (("p", Space.mk "p" [Conn.mk 0 "p"] []) : String × Space).2.pending ≠ [])
    ∧ (lookupSpace (onclose [("p", Space.mk "p" [Conn.mk 0 "p"] [])]
          (Conn.mk 0 "p")).1 (Conn.mk 0 "p").path = none
        ↔ postCloseRequests (Space.mk "p" [Conn.mk 0 "p"] []) (Conn.mk 0 "p") = [])
    ∧ (lookupSpace (onopen noFail [("p", Space.mk "p" [Conn.mk 0 "p"] [])]
          (Conn.mk 1 "q")).spaces "p").isSome = true
    ∧ (lookupSpace (onmessage noFail [("p", Space.mk "p" [Conn.mk 0 "p"] [])]
          (Conn.mk 1 "q") none).spaces "p").isSome = true :=
  ⟨registry_liveness_and_deletion.1 [Call.opened (Conn.mk 0 "p") noFail]
      (by simp [goodTrace, goodCall]) ("p", Space.mk "p" [Conn.mk 0 "p"] [])
      (List.Mem.head _),
   registry_liveness_and_deletion.2.1 [("p", Space.mk "p" [Conn.mk 0 "p"] [])]
      (Conn.mk 0 "p") (Space.mk "p" [Conn.mk 0 "p"] []) rfl,
   registry_liveness_and_deletion.2.2.1 noFail
      [("p", Space.mk "p" [Conn.mk 0 "p"] [])] (Conn.mk 1 "q") "p" rfl,
   registry_liveness_and_deletion.2.2.2 noFail
      [("p", Space.mk "p" [Conn.mk 0 "p"] [])] (Conn.mk 1 "q") none "p" rfl⟩

/-- C8 counterexample: a contract-respecting trace in which the peer that
the core cascade-closed (but whose own transport close has not yet been
delivered) sends a NOTIFY without a data field: the hook first re-creates
the session, then raises KeyError, leaving a session with no member and no
pending entry in the registry. -/
theorem empty_session_reachable :
    contract
      [Call.handshake (Conn.mk 0 "p"), Call.opened (Conn.mk 0 "p") noFail,
       Call.handshake (Conn.mk 1 "p"), Call.opened (Conn.mk 1 "p") noFail,
       Call.closed (Conn.mk 0 "p"),
       Call.message (Conn.mk 1 "p")
         (some (Json.obj [("method", Json.str "NOTIFY")])) noFail]
      = true
    ∧ run
      [Call.handshake (Conn.mk 0 "p"), Call.opened (Conn.mk 0 "p") noFail,
       Call.handshake (Conn.mk 1 "p"), Call.opened (Conn.mk 1 "p") noFail,
       Call.closed (Conn.mk 0 "p"),
       Call.message (Conn.mk 1 "p")
         (some (Json.obj [("method", Json.str "NOTIFY")])) noFail]
      = [("p", Space.mk "p" [] [])] :=
  ⟨rfl, rfl⟩
